import Mathlib

/-!
Shallow embedding of `scripts/run_system.py` (the heartbeat reporter of the
RLMax repository) and theorems about its observable behaviour.

The script configures a logger with format
`%(asctime)s - %(name)s - %(levelname)s - %(message)s`, then runs

  async def health_check():
      while True:
          logger.info(f"System healthy at \x7bdatetime.now().isoformat()\x7d")
          await asyncio.sleep(30)

  async def main():
      logger.info("Starting Trading System...")
      try:
          await health_check()
      except KeyboardInterrupt:
          logger.info("Shutting down Trading System...")
      except Exception as e:
          logger.error(f"System error: \x7be\x7d")
          sys.exit(1)

The embedding records the observable behaviour of a run as a list of events.
Timestamps are abstract clock readings (naturals): `clock i` is the value of
the i-th call to `datetime.now()` made by the loop.  The event vocabulary
deliberately includes network calls, file writes and environment reads, so
that "the program performs none of these" is a statement about the trace the
embedded program actually produces, not about the type.
-/

namespace RunSystem

/-- Abstract rendering of `datetime.isoformat()`: an injective textual form of
an abstract clock reading. -/
def isoFormat (t : Nat) : String := toString t

/-- Logging levels used by the script (`logger.info` / `logger.error`). -/
inductive Level
  | info
  | error
deriving DecidableEq, Repr

/-- `%(levelname)s` in the configured logging format. -/
def Level.render : Level → String
  | .info => "INFO"
  | .error => "ERROR"

/-- The four message call sites of the script, one constructor per call site. -/
inductive Msg
  | starting
  | healthy (ts : Nat)
  | shuttingDown
  | systemError (detail : String)
deriving DecidableEq, Repr

/-- `%(message)s`: the exact string each call site passes to the logger. -/
def Msg.render : Msg → String
  | .starting => "Starting Trading System..."
  | .healthy ts => "System healthy at " ++ isoFormat ts
  | .shuttingDown => "Shutting down Trading System..."
  | .systemError d => "System error: " ++ d

/-- Observable events of a run.  `log` is a write of one record to the logging
sink; `sleepFor` is the cooperative suspension `await asyncio.sleep(s)`.  The
remaining constructors are effect vocabulary the script never uses. -/
inductive Ev
  | log (time : Nat) (name : String) (level : Level) (msg : Msg)
  | sleepFor (seconds : Nat)
  | netCall (detail : String)
  | fileWrite (path : String)
  | envRead (varName : String)
deriving DecidableEq, Repr

/-- `logging.getLogger(__name__)` with the script run as `__main__`. -/
def LOGGER_NAME : String := "__main__"

/-- The literal argument of `asyncio.sleep(30)`. -/
def HEARTBEAT_INTERVAL : Nat := 30

/-- The heartbeat record emitted by one loop iteration whose
`datetime.now()` call read `t`. -/
def heartbeatEv (t : Nat) : Ev := .log t LOGGER_NAME .info (.healthy t)

/-- `logger.info("Starting Trading System...")`. -/
def startingEv (t : Nat) : Ev := .log t LOGGER_NAME .info .starting

/-- `logger.info("Shutting down Trading System...")`. -/
def shutdownEv (t : Nat) : Ev := .log t LOGGER_NAME .info .shuttingDown

/-- `logger.error(f"System error: ...")`. -/
def errorEv (t : Nat) (d : String) : Ev := .log t LOGGER_NAME .error (.systemError d)

/-- `health_check()`: `while True: log healthy; await sleep(30)`.
Fuel-indexed execution: `i` counts loop iterations already performed, `clock`
supplies the successive `datetime.now()` readings.  The result is the list of
events emitted within `fuel` iterations together with a flag telling whether
the function returned of its own accord (the loop has no `break` or `return`,
so the flag stays `false`). -/
def health_check (clock : Nat → Nat) (i : Nat) : Nat → List Ev × Bool
  | 0 => ([], false)
  | fuel + 1 =>
      let rest := health_check clock (i + 1) fuel
      (heartbeatEv (clock i) :: Ev.sleepFor HEARTBEAT_INTERVAL :: rest.1, rest.2)

/-- The events of `n` complete loop iterations starting at iteration `i`. -/
def loopPairs (clock : Nat → Nat) (i : Nat) : Nat → List Ev
  | 0 => []
  | n + 1 => heartbeatEv (clock i) :: Ev.sleepFor HEARTBEAT_INTERVAL :: loopPairs clock (i + 1) n

/-- The first `n` atomic events of the loop (a signal can preempt the loop at
any event boundary, including between a heartbeat write and its sleep). -/
def loopPrefix (clock : Nat → Nat) (i n : Nat) : List Ev :=
  loopPairs clock i (n / 2) ++
    (if n % 2 = 1 then [heartbeatEv (clock (i + n / 2))] else [])

/-- The exception delivered into the loop: `KeyboardInterrupt`, or any other
exception (carrying the detail text that `f"System error: \x7be\x7d"` embeds). -/
inductive LoopExc
  | keyboardInterrupt
  | exc (detail : String)
deriving DecidableEq, Repr

/-- `main()` with signal `sig` delivered after `n` atomic loop events: logs
the startup line, emits the loop events up to the delivery point, then either
catches `KeyboardInterrupt` (shutdown line, normal return, process exit 0) or
catches the exception (error line, `sys.exit(1)`).  Returns the event trace
and the process exit code. -/
def mainRun (clock : Nat → Nat) (tStart tEnd n : Nat) (sig : LoopExc) :
    List Ev × Nat :=
  let pre := startingEv tStart :: loopPrefix clock 0 n
  match sig with
  | .keyboardInterrupt => (pre ++ [shutdownEv tEnd], 0)
  | .exc d => (pre ++ [errorEv tEnd d], 1)

/-- The trace of a run in which no signal is delivered within `fuel` loop
iterations: the startup line followed by the loop's events. -/
def mainNoSignal (clock : Nat → Nat) (tStart fuel : Nat) : List Ev :=
  startingEv tStart :: (health_check clock 0 fuel).1

/-- Is this event a heartbeat record? -/
def isHeartbeat : Ev → Bool
  | .log _ _ _ (.healthy _) => true
  | _ => false

/-- Is this event the shutdown notice? -/
def isShutdown : Ev → Bool
  | .log _ _ _ .shuttingDown => true
  | _ => false

/-- Is this event the fatal-error line? -/
def isErrorLine : Ev → Bool
  | .log _ _ _ (.systemError _) => true
  | _ => false

/-- Is this event the startup line? -/
def isStartup : Ev → Bool
  | .log _ _ _ .starting => true
  | _ => false

/-- Is this event a cooperative suspension? -/
def isSleep : Ev → Bool
  | .sleepFor _ => true
  | _ => false

/-- Is this event a write to the logging sink? -/
def isLogWrite : Ev → Bool
  | .log _ _ _ _ => true
  | _ => false

/-- The line the configured formatter
`%(asctime)s - %(name)s - %(levelname)s - %(message)s` prints for a log
event; `none` for events that are not log writes. -/
def renderLog : Ev → Option String
  | .log t nm lvl msg =>
      some (isoFormat t ++ " - " ++ nm ++ " - " ++ lvl.render ++ " - " ++ msg.render)
  | _ => none

/-- The lines the run writes to the logging sink, in order. -/
def emittedLines (tr : List Ev) : List String := tr.filterMap renderLog

/-- The timestamps embedded in the heartbeat records of a trace, in emission
order. -/
def heartbeatTimes (tr : List Ev) : List Nat :=
  tr.filterMap (fun e =>
    match e with
    | .log _ _ _ (.healthy ts) => some ts
    | _ => none)

/-- The events strictly after the first event satisfying `p` (all events when
no event satisfies `p`). -/
def afterFirst (p : Ev → Bool) (tr : List Ev) : List Ev :=
  (tr.dropWhile (fun e => !p e)).drop 1

/-! ### Helper lemmas -/

theorem dropWhile_append_of_all {α : Type} (p : α → Bool) :
    ∀ (l₁ l₂ : List α), (∀ x ∈ l₁, p x = true) →
      List.dropWhile p (l₁ ++ l₂) = List.dropWhile p l₂
  | [], l₂, _ => rfl
  | a :: l₁, l₂, h => by
      have ha : p a = true := h a (List.mem_cons_self a l₁)
      simp only [List.cons_append, List.dropWhile_cons, ha, if_true]
      exact dropWhile_append_of_all p l₁ l₂ (fun x hx => h x (List.mem_cons_of_mem a hx))

theorem mem_loopPairs {clock : Nat → Nat} {ev : Ev} :
    ∀ {n i : Nat}, ev ∈ loopPairs clock i n →
      (∃ k, k < n ∧ ev = heartbeatEv (clock (i + k))) ∨
        ev = Ev.sleepFor HEARTBEAT_INTERVAL := by
  intro n
  induction n with
  | zero => intro i h; simp [loopPairs] at h
  | succ n ih =>
      intro i h
      simp only [loopPairs, List.mem_cons] at h
      rcases h with h | h | h
      · exact Or.inl ⟨0, Nat.succ_pos n, by simpa using h⟩
      · exact Or.inr h
      · rcases ih h with ⟨k, hk, hev⟩ | hs
        · refine Or.inl ⟨k + 1, Nat.succ_lt_succ hk, ?_⟩
          simpa [Nat.add_assoc, Nat.add_comm 1 k] using hev
        · exact Or.inr hs

theorem mem_loopPrefix {clock : Nat → Nat} {ev : Ev} {i n : Nat}
    (h : ev ∈ loopPrefix clock i n) :
    (∃ k, ev = heartbeatEv (clock k)) ∨ ev = Ev.sleepFor HEARTBEAT_INTERVAL := by
  simp only [loopPrefix, List.mem_append] at h
  rcases h with h | h
  · rcases mem_loopPairs h with ⟨k, _, hev⟩ | hs
    · exact Or.inl ⟨i + k, hev⟩
    · exact Or.inr hs
  · by_cases hmod : n % 2 = 1
    · simp only [hmod, if_true, List.mem_singleton] at h
      exact Or.inl ⟨i + n / 2, h⟩
    · simp [hmod] at h

theorem health_check_fst (clock : Nat → Nat) :
    ∀ (fuel i : Nat), (health_check clock i fuel).1 = loopPairs clock i fuel
  | 0, _ => rfl
  | fuel + 1, i => by
      simp [health_check, loopPairs, health_check_fst clock fuel (i + 1)]

theorem health_check_snd (clock : Nat → Nat) :
    ∀ (fuel i : Nat), (health_check clock i fuel).2 = false
  | 0, _ => rfl
  | fuel + 1, i => by
      simp [health_check, health_check_snd clock fuel (i + 1)]

theorem heartbeatTimes_loopPairs (clock : Nat → Nat) :
    ∀ (n i : Nat),
      heartbeatTimes (loopPairs clock i n) = (List.range n).map (fun k => clock (i + k))
  | 0, _ => rfl
  | n + 1, i => by
      have hhead : heartbeatTimes (loopPairs clock i (n + 1)) =
          clock i :: heartbeatTimes (loopPairs clock (i + 1) n) := rfl
      rw [hhead, heartbeatTimes_loopPairs clock n (i + 1), List.range_succ_eq_map]
      simp only [List.map_cons, List.map_map, Nat.add_zero, Function.comp]
      congr 1
      apply List.map_congr_left
      intro k _
      congr 1
      omega

theorem heartbeatTimes_append (tr₁ tr₂ : List Ev) :
    heartbeatTimes (tr₁ ++ tr₂) = heartbeatTimes tr₁ ++ heartbeatTimes tr₂ := by
  simp [heartbeatTimes]

theorem heartbeatTimes_loopPrefix (clock : Nat → Nat) (i n : Nat) :
    heartbeatTimes (loopPrefix clock i n) =
      (List.range (n / 2 + n % 2)).map (fun k => clock (i + k)) := by
  rw [loopPrefix, heartbeatTimes_append, heartbeatTimes_loopPairs]
  by_cases hmod : n % 2 = 1
  · rw [hmod, if_pos rfl, List.range_succ, List.map_append]
    simp [heartbeatTimes, heartbeatEv]
  · have h0 : n % 2 = 0 := by omega
    rw [h0, if_neg (by omega : ¬(0 = 1))]
    simp [heartbeatTimes]

theorem isShutdown_of_loopPrefix {clock : Nat → Nat} {i n : Nat} {ev : Ev}
    (h : ev ∈ loopPrefix clock i n) : isShutdown ev = false := by
  rcases mem_loopPrefix h with ⟨k, rfl⟩ | rfl <;> rfl

theorem isErrorLine_of_loopPrefix {clock : Nat → Nat} {i n : Nat} {ev : Ev}
    (h : ev ∈ loopPrefix clock i n) : isErrorLine ev = false := by
  rcases mem_loopPrefix h with ⟨k, rfl⟩ | rfl <;> rfl

theorem mem_mainRun_shape {clock : Nat → Nat} {tS tE n : Nat} {sig : LoopExc} {ev : Ev}
    (h : ev ∈ (mainRun clock tS tE n sig).1) :
    ev = startingEv tS ∨ (∃ t, ev = heartbeatEv t) ∨
      ev = Ev.sleepFor HEARTBEAT_INTERVAL ∨ ev = shutdownEv tE ∨
      ∃ d, ev = errorEv tE d := by
  cases sig with
  | keyboardInterrupt =>
      have h' : ev = startingEv tS ∨ ev ∈ loopPrefix clock 0 n ∨ ev = shutdownEv tE := by
        simpa [mainRun] using h
      rcases h' with rfl | hmem | rfl
      · exact Or.inl rfl
      · rcases mem_loopPrefix hmem with ⟨k, rfl⟩ | rfl
        · exact Or.inr (Or.inl ⟨clock k, rfl⟩)
        · exact Or.inr (Or.inr (Or.inl rfl))
      · exact Or.inr (Or.inr (Or.inr (Or.inl rfl)))
  | exc d =>
      have h' : ev = startingEv tS ∨ ev ∈ loopPrefix clock 0 n ∨ ev = errorEv tE d := by
        simpa [mainRun] using h
      rcases h' with rfl | hmem | rfl
      · exact Or.inl rfl
      · rcases mem_loopPrefix hmem with ⟨k, rfl⟩ | rfl
        · exact Or.inr (Or.inl ⟨clock k, rfl⟩)
        · exact Or.inr (Or.inr (Or.inl rfl))
      · exact Or.inr (Or.inr (Or.inr (Or.inr ⟨d, rfl⟩)))

/-! ### Claims -/

/-- Claim C1: when a cancellation/interrupt signal (`KeyboardInterrupt`) is
delivered at any point of the loop, the process exits with code 0, emits
exactly one shutdown log line, and emits no heartbeat line after that
shutdown line. -/
theorem c1_interrupt_clean_shutdown (clock : Nat → Nat) (tStart tEnd n : Nat) :
    (mainRun clock tStart tEnd n LoopExc.keyboardInterrupt).2 = 0 ∧
      (mainRun clock tStart tEnd n LoopExc.keyboardInterrupt).1.countP isShutdown = 1 ∧
      (afterFirst isShutdown
          (mainRun clock tStart tEnd n LoopExc.keyboardInterrupt).1).countP isHeartbeat
        = 0 := by
  refine ⟨rfl, ?_, ?_⟩
  · show (startingEv tStart :: (loopPrefix clock 0 n ++ [shutdownEv tEnd])).countP isShutdown
        = 1
    rw [List.countP_cons, List.countP_append]
    have h2 : (loopPrefix clock 0 n).countP isShutdown = 0 := by
      rw [List.countP_eq_zero]
      intro a ha
      simp [isShutdown_of_loopPrefix ha]
    simp [h2, isShutdown, startingEv, shutdownEv, List.countP_cons]
  · show (afterFirst isShutdown
        (startingEv tStart :: (loopPrefix clock 0 n ++ [shutdownEv tEnd]))).countP isHeartbeat
        = 0
    rw [afterFirst,
      show startingEv tStart :: (loopPrefix clock 0 n ++ [shutdownEv tEnd])
          = (startingEv tStart :: loopPrefix clock 0 n) ++ [shutdownEv tEnd] from by simp,
      dropWhile_append_of_all _ _ _ ?_]
    · simp [List.dropWhile, isShutdown, shutdownEv]
    · intro x hx
      rcases List.mem_cons.mp hx with rfl | hx
      · rfl
      · simp [isShutdown_of_loopPrefix hx]

/-- Claim C2: when any exception other than a cancellation/interrupt is raised
during the loop body, the process exits with code 1 and emits exactly one
error log line, whose message is the string "System error: " followed by the
failure detail. -/
theorem c2_error_exit_one (clock : Nat → Nat) (tStart tEnd n : Nat) (d : String) :
    (mainRun clock tStart tEnd n (LoopExc.exc d)).2 = 1 ∧
      (mainRun clock tStart tEnd n (LoopExc.exc d)).1.countP isErrorLine = 1 ∧
      errorEv tEnd d ∈ (mainRun clock tStart tEnd n (LoopExc.exc d)).1 ∧
      Msg.render (Msg.systemError d) = "System error: " ++ d := by
  refine ⟨rfl, ?_, ?_, rfl⟩
  · show (startingEv tStart :: (loopPrefix clock 0 n ++ [errorEv tEnd d])).countP isErrorLine
        = 1
    rw [List.countP_cons, List.countP_append]
    have h2 : (loopPrefix clock 0 n).countP isErrorLine = 0 := by
      rw [List.countP_eq_zero]
      intro a ha
      simp [isErrorLine_of_loopPrefix ha]
    simp [h2, isErrorLine, startingEv, errorEv, List.countP_cons]
  · show errorEv tEnd d ∈ startingEv tStart :: (loopPrefix clock 0 n ++ [errorEv tEnd d])
    simp

/-- Claim C5: a cancellation delivered immediately after startup, before any
heartbeat emits (zero atomic loop events), yields exactly a startup line and a
shutdown line, zero heartbeat lines, and exit code 0. -/
theorem c5_immediate_cancel (clock : Nat → Nat) (tStart tEnd : Nat) :
    (mainRun clock tStart tEnd 0 LoopExc.keyboardInterrupt).1 =
        [startingEv tStart, shutdownEv tEnd] ∧
      (mainRun clock tStart tEnd 0 LoopExc.keyboardInterrupt).1.countP isHeartbeat = 0 ∧
      (mainRun clock tStart tEnd 0 LoopExc.keyboardInterrupt).2 = 0 := by
  refine ⟨rfl, ?_, rfl⟩
  rfl

/-- Claim C9: the heartbeat loop never terminates of its own accord: for every
amount of fuel, `health_check` has not returned (`while True` with no `break`
or `return`), and it keeps emitting two events per iteration. -/
theorem c9_loop_never_returns (clock : Nat → Nat) (i fuel : Nat) :
    (health_check clock i fuel).2 = false ∧
      (health_check clock i fuel).1.length = 2 * fuel := by
  refine ⟨health_check_snd clock fuel i, ?_⟩
  rw [health_check_fst]
  induction fuel generalizing i with
  | zero => rfl
  | succ fuel ih => simp [loopPairs, ih]; omega

/-- Claim C3: every iteration of the heartbeat loop performs, in order:
capture the current time (iteration k reads `clock (i + k)`), write the log
record embedding that timestamp with status healthy, suspend for the
interval, then repeat; the heartbeat record renders as a line whose message
embeds the captured timestamp inside the literal text "System healthy at ". -/
theorem c3_loop_iteration_order (clock : Nat → Nat) (i fuel : Nat) :
    (health_check clock i fuel).1 =
      (List.range fuel).flatMap
        (fun k => [heartbeatEv (clock (i + k)), Ev.sleepFor HEARTBEAT_INTERVAL]) ∧
      ∀ ts, renderLog (heartbeatEv ts) =
        some (isoFormat ts ++ " - " ++ LOGGER_NAME ++ " - " ++ "INFO" ++ " - " ++
          ("System healthy at " ++ isoFormat ts)) := by
  refine ⟨?_, fun ts => rfl⟩
  induction fuel generalizing i with
  | zero => rfl
  | succ fuel ih =>
      have hstep : (health_check clock i (fuel + 1)).1 =
          heartbeatEv (clock i) :: Ev.sleepFor HEARTBEAT_INTERVAL ::
            (health_check clock (i + 1) fuel).1 := rfl
      rw [hstep, ih (i + 1), List.range_succ_eq_map, List.flatMap_cons, List.flatMap_map]
      simp only [List.cons_append, List.nil_append, Nat.add_zero, Function.comp]
      refine congrArg₂ List.cons rfl (congrArg₂ List.cons rfl ?_)
      apply List.flatMap_congr
      intro k _
      have hk : i + 1 + k = i + (k + 1) := by omega
      rw [hk]

/-- Claim C4: every emitted line has the configured format
timestamp - logger-name - level - message, and the message is one of: the
startup notice, a healthy heartbeat embedding a timestamp, the shutdown
notice, or a system-error message carrying the detail. -/
theorem c4_log_line_shapes (clock : Nat → Nat) (tS tE n : Nat) (sig : LoopExc) :
    ∀ s ∈ emittedLines (mainRun clock tS tE n sig).1,
      ∃ t lvl m,
        s = isoFormat t ++ " - " ++ LOGGER_NAME ++ " - " ++ lvl ++ " - " ++ m ∧
        (lvl = "INFO" ∨ lvl = "ERROR") ∧
        (m = "Starting Trading System..." ∨
          (∃ ts, m = "System healthy at " ++ isoFormat ts) ∨
          m = "Shutting down Trading System..." ∨
          ∃ d, m = "System error: " ++ d) := by
  intro s hs
  rw [emittedLines, List.mem_filterMap] at hs
  obtain ⟨ev, hmem, hrender⟩ := hs
  rcases mem_mainRun_shape hmem with rfl | ⟨t, rfl⟩ | rfl | rfl | ⟨d, rfl⟩
  · exact ⟨tS, "INFO", "Starting Trading System...",
      (Option.some_injective _ hrender).symm, Or.inl rfl, Or.inl rfl⟩
  · exact ⟨t, "INFO", "System healthy at " ++ isoFormat t,
      (Option.some_injective _ hrender).symm, Or.inl rfl, Or.inr (Or.inl ⟨t, rfl⟩)⟩
  · exact absurd hrender (by simp [renderLog])
  · exact ⟨tE, "INFO", "Shutting down Trading System...",
      (Option.some_injective _ hrender).symm, Or.inl rfl, Or.inr (Or.inr (Or.inl rfl))⟩
  · exact ⟨tE, "ERROR", "System error: " ++ d,
      (Option.some_injective _ hrender).symm, Or.inr rfl, Or.inr (Or.inr (Or.inr ⟨d, rfl⟩))⟩

/-- Witness for C4 at a concrete run: the startup line of the zero-iteration
interrupted run has the stated shape. -/
theorem c4_log_line_shapes_witness :
    (renderLog (startingEv 0)).getD ""
        ∈ emittedLines (mainRun (fun _ => 0) 0 0 0 LoopExc.keyboardInterrupt).1 ∧
      ∃ t lvl m,
        (renderLog (startingEv 0)).getD ""
            = isoFormat t ++ " - " ++ LOGGER_NAME ++ " - " ++ lvl ++ " - " ++ m ∧
          (lvl = "INFO" ∨ lvl = "ERROR") ∧
          (m = "Starting Trading System..." ∨
            (∃ ts, m = "System healthy at " ++ isoFormat ts) ∨
            m = "Shutting down Trading System..." ∨
            ∃ d, m = "System error: " ++ d) :=
  ⟨by simp [emittedLines, mainRun, loopPrefix, loopPairs, startingEv, renderLog],
    c4_log_line_shapes (fun _ => 0) 0 0 0 LoopExc.keyboardInterrupt _
      (by simp [emittedLines, mainRun, loopPrefix, loopPairs, startingEv, renderLog])⟩

/-- Claim C6: the configured interval constant is 30 seconds, and every
suspension event in any run passes exactly that constant to the sleep
primitive. -/
theorem c6_interval_thirty :
    HEARTBEAT_INTERVAL = 30 ∧
      ∀ (clock : Nat → Nat) (tS tE n : Nat) (sig : LoopExc) (s : Nat),
        Ev.sleepFor s ∈ (mainRun clock tS tE n sig).1 → s = HEARTBEAT_INTERVAL := by
  refine ⟨rfl, ?_⟩
  intro clock tS tE n sig s hmem
  rcases mem_mainRun_shape hmem with h | ⟨t, h⟩ | h | h | ⟨d, h⟩
  · exact absurd h (by simp [startingEv])
  · exact absurd h (by simp [heartbeatEv])
  · exact (Ev.sleepFor.injEq ..).mp h
  · exact absurd h (by simp [shutdownEv])
  · exact absurd h (by simp [errorEv])

/-- Witness for C6 at a concrete run: the sleep event of a one-iteration
interrupted run passes 30 seconds. -/
theorem c6_interval_thirty_witness :
    Ev.sleepFor 30 ∈ (mainRun (fun _ => 0) 0 0 2 LoopExc.keyboardInterrupt).1 ∧
      30 = HEARTBEAT_INTERVAL :=
  ⟨by decide,
    c6_interval_thirty.2 (fun _ => 0) 0 0 2 LoopExc.keyboardInterrupt 30 (by decide)⟩

theorem chain_le_map_range (f : Nat → Nat) (h : ∀ k, f k ≤ f (k + 1)) (m : Nat) :
    List.Chain' (· ≤ ·) ((List.range m).map f) := by
  cases m with
  | zero => simp
  | succ m =>
      rw [List.chain'_map]
      exact (List.chain'_range_succ _ m).mpr fun k _ => h k

/-- Claim C7: when the clock readings are non-decreasing, the timestamps
embedded in successive heartbeat records of a run are monotonically
non-decreasing. -/
theorem c7_heartbeat_monotone (clock : Nat → Nat) (tS tE n : Nat) (sig : LoopExc)
    (hmono : ∀ a b : Nat, a ≤ b → clock a ≤ clock b) :
    List.Chain' (· ≤ ·) (heartbeatTimes (mainRun clock tS tE n sig).1) := by
  have hclosed : heartbeatTimes (mainRun clock tS tE n sig).1 =
      (List.range (n / 2 + n % 2)).map (fun k => clock (0 + k)) := by
    cases sig with
    | keyboardInterrupt =>
        show heartbeatTimes
            (startingEv tS :: (loopPrefix clock 0 n ++ [shutdownEv tE])) = _
        rw [show heartbeatTimes
              (startingEv tS :: (loopPrefix clock 0 n ++ [shutdownEv tE]))
            = heartbeatTimes (loopPrefix clock 0 n ++ [shutdownEv tE]) from rfl,
          heartbeatTimes_append, heartbeatTimes_loopPrefix]
        simp [heartbeatTimes, shutdownEv]
    | exc d =>
        show heartbeatTimes
            (startingEv tS :: (loopPrefix clock 0 n ++ [errorEv tE d])) = _
        rw [show heartbeatTimes
              (startingEv tS :: (loopPrefix clock 0 n ++ [errorEv tE d]))
            = heartbeatTimes (loopPrefix clock 0 n ++ [errorEv tE d]) from rfl,
          heartbeatTimes_append, heartbeatTimes_loopPrefix]
        simp [heartbeatTimes, errorEv]
  rw [hclosed]
  exact chain_le_map_range _ (fun k => hmono _ _ (by omega)) _

/-- Witness for C7 at a concrete run with the identity clock. -/
theorem c7_heartbeat_monotone_witness :
    (∀ a b : Nat, a ≤ b → a ≤ b) ∧
      List.Chain' (· ≤ ·)
        (heartbeatTimes (mainRun (fun t => t) 0 0 5 LoopExc.keyboardInterrupt).1) :=
  ⟨fun _ _ h => h,
    c7_heartbeat_monotone (fun t => t) 0 0 5 LoopExc.keyboardInterrupt fun _ _ h => h⟩

/-- Claim C8: the only observable side effects of any run are writes to the
logging sink: every event of the trace is a log write or the cooperative
suspension; no network call, file write or environment read ever appears. -/
theorem c8_only_logging_effects (clock : Nat → Nat) (tS tE n : Nat) (sig : LoopExc) :
    ∀ ev ∈ (mainRun clock tS tE n sig).1,
      (isLogWrite ev = true ∨ ev = Ev.sleepFor HEARTBEAT_INTERVAL) ∧
        (∀ d, ev ≠ Ev.netCall d) ∧ (∀ p, ev ≠ Ev.fileWrite p) ∧
        (∀ v, ev ≠ Ev.envRead v) := by
  intro ev hmem
  rcases mem_mainRun_shape hmem with rfl | ⟨t, rfl⟩ | rfl | rfl | ⟨d, rfl⟩
  · exact ⟨Or.inl rfl, fun d => by simp [startingEv], fun p => by simp [startingEv],
      fun v => by simp [startingEv]⟩
  · exact ⟨Or.inl rfl, fun d => by simp [heartbeatEv], fun p => by simp [heartbeatEv],
      fun v => by simp [heartbeatEv]⟩
  · exact ⟨Or.inr rfl, fun d => by simp, fun p => by simp, fun v => by simp⟩
  · exact ⟨Or.inl rfl, fun d => by simp [shutdownEv], fun p => by simp [shutdownEv],
      fun v => by simp [shutdownEv]⟩
  · exact ⟨Or.inl rfl, fun d' => by simp [errorEv], fun p => by simp [errorEv],
      fun v => by simp [errorEv]⟩

/-- Witness for C8 at a concrete run: the startup event is a log write. -/
theorem c8_only_logging_effects_witness :
    startingEv 0 ∈ (mainRun (fun _ => 0) 0 0 0 LoopExc.keyboardInterrupt).1 ∧
      isLogWrite (startingEv 0) = true :=
  ⟨by simp [mainRun, loopPrefix, loopPairs],
    by
      rcases (c8_only_logging_effects (fun _ => 0) 0 0 0 LoopExc.keyboardInterrupt
          (startingEv 0) (by simp [mainRun, loopPrefix, loopPairs])).1 with h | h
      · exact h
      · exact absurd h (by simp [startingEv])⟩

/-- Claim C10: the first heartbeat line is emitted before the first
suspension: the uninterrupted run begins with the startup line, then a
heartbeat carrying the first clock reading, then the first sleep. -/
theorem c10_first_heartbeat_before_sleep (clock : Nat → Nat) (tStart fuel : Nat) :
    (mainNoSignal clock tStart (fuel + 1)).take 3 =
      [startingEv tStart, heartbeatEv (clock 0), Ev.sleepFor HEARTBEAT_INTERVAL] := rfl

end RunSystem
